import Mathlib

/-!
Verification development for the `pdf-redactor` application.

The development shallowly embeds the annotation / coordinate / redaction
core of the program (src/pdf_viewer.py, src/redaction_engine.py,
src/redactor_app.py).  Coordinates are modelled as exact rationals `ℚ`
standing in for the Python floats, the per-page rectangle dictionary
`_page_rects` is modelled as an insertion-ordered association list with
Python `dict` semantics (lookup of the first matching key, assignment in
place, new keys appended at the end), and the Qt scene is modelled as the
list of `RedactionRect` items it currently contains.
-/

set_option autoImplicit false

namespace PdfRedactor

/-- Geometry of a rectangle item in render (scene) space: position of the
top-left corner plus width and height, as used by `QRectF` /
`RedactionRect.rect()` in src/pdf_viewer.py. -/
structure Rect where
  x : ℚ
  y : ℚ
  w : ℚ
  h : ℚ
  deriving DecidableEq, Repr

/-- Document-space rectangle `(x0, y0, x1, y1)`, the tuple produced by
`PdfViewer.get_all_redactions` (src/pdf_viewer.py lines 166-174) and
consumed by `RedactionEngine.apply_redactions`. -/
structure DocRect where
  x0 : ℚ
  y0 : ℚ
  x1 : ℚ
  y1 : ℚ
  deriving DecidableEq, Repr

/-- Conversion from render (scene) space to document space, embedded from
the body of `PdfViewer.get_all_redactions` (src/pdf_viewer.py lines
166-174): each corner coordinate of the scene rectangle is divided by the
zoom factor; the corners are `(x, y)` and `(x + w, y + h)`. -/
def toDocumentSpace (r : Rect) (zoom : ℚ) : DocRect :=
  { x0 := r.x / zoom
    y0 := r.y / zoom
    x1 := (r.x + r.w) / zoom
    y1 := (r.y + r.h) / zoom }

/-- Conversion from document space to render space, embedded from the
rendering transform of `PdfViewer._render_page` (src/pdf_viewer.py lines
111-117), where the page is rasterised through `fitz.Matrix(zoom, zoom)`,
i.e. every document coordinate is multiplied by the zoom factor. -/
def toRenderSpace (d : DocRect) (zoom : ℚ) : Rect :=
  { x := d.x0 * zoom
    y := d.y0 * zoom
    w := (d.x1 - d.x0) * zoom
    h := (d.y1 - d.y0) * zoom }

/-- Zoom-in update of the scale factor, from `PdfViewer.zoom_in`
(src/pdf_viewer.py line 86): `self._zoom = min(self._zoom * 1.25, 8.0)`. -/
def zoom_in_scale (z : ℚ) : ℚ := min (z * (5/4)) 8

/-- Zoom-out update of the scale factor, from `PdfViewer.zoom_out`
(src/pdf_viewer.py line 90): `self._zoom = max(self._zoom / 1.25, 0.5)`. -/
def zoom_out_scale (z : ℚ) : ℚ := max (z / (5/4)) (1/2)

/-- Initial scale factor, from `PdfViewer.__init__` (src/pdf_viewer.py
line 37): `self._zoom = 2.0`. -/
def initZoom : ℚ := 2

/-- A zoom operation requested by the user (toolbar action or
Ctrl+scroll wheel). -/
inductive ZoomOp where
  | zin : ZoomOp
  | zout : ZoomOp
  deriving DecidableEq, Repr

/-- Effect of one zoom operation on the scale factor. -/
def applyZoomOp (z : ℚ) : ZoomOp → ℚ
  | ZoomOp.zin => zoom_in_scale z
  | ZoomOp.zout => zoom_out_scale z

/-- Scale factor reached after a sequence of zoom operations. -/
def applyZoomOps (ops : List ZoomOp) (z : ℚ) : ℚ :=
  ops.foldl applyZoomOp z

theorem zoom_in_scale_mem {z : ℚ} (h1 : 1/2 ≤ z) (h2 : z ≤ 8) :
    1/2 ≤ zoom_in_scale z ∧ zoom_in_scale z ≤ 8 := by
  unfold zoom_in_scale
  constructor
  · apply le_min
    · linarith
    · norm_num
  · exact min_le_right _ _

theorem zoom_out_scale_mem {z : ℚ} (h1 : 1/2 ≤ z) (h2 : z ≤ 8) :
    1/2 ≤ zoom_out_scale z ∧ zoom_out_scale z ≤ 8 := by
  unfold zoom_out_scale
  constructor
  · exact le_max_right _ _
  · apply max_le
    · rw [div_le_iff₀ (by norm_num : (0:ℚ) < 5/4)]
      linarith
    · norm_num

theorem applyZoomOps_mem {z : ℚ} (ops : List ZoomOp) (h1 : 1/2 ≤ z) (h2 : z ≤ 8) :
    1/2 ≤ applyZoomOps ops z ∧ applyZoomOps ops z ≤ 8 := by
  induction ops generalizing z with
  | nil => exact ⟨h1, h2⟩
  | cons op rest ih =>
    have hstep : 1/2 ≤ applyZoomOp z op ∧ applyZoomOp z op ≤ 8 := by
      cases op with
      | zin => exact zoom_in_scale_mem h1 h2
      | zout => exact zoom_out_scale_mem h1 h2
    exact ih hstep.1 hstep.2

/-- A `RedactionRect` item as held by the scene and by `_page_rects`.
The `id` field models Python object identity of the `QGraphicsRectItem`,
`rect` its geometry, and `selected` its Qt selection flag. -/
structure RItem where
  id : ℕ
  rect : Rect
  selected : Bool
  deriving DecidableEq, Repr

/-- Lookup in a Python `dict` modelled as an insertion-ordered association
list: the value of the first matching key, where a missing key yields the
empty list (the behaviour of `dict.get(k, [])`, which is how every reader
of `_page_rects` treats a missing page). -/
def dictGet {α : Type} : List (ℕ × List α) → ℕ → List α
  | [], _ => []
  | (k, v) :: rest, key => if k = key then v else dictGet rest key

/-- Key-membership test of the association-list dictionary, modelling
`k in d` for a Python `dict`. -/
def dictHas {α : Type} : List (ℕ × List α) → ℕ → Bool
  | [], _ => false
  | (k, _) :: rest, key => if k = key then true else dictHas rest key

/-- Assignment `d[k] = v` on the association-list dictionary: an existing
key is updated in place (keeping its position, as Python dicts do), a new
key is appended at the end (Python dict insertion order). -/
def dictSet {α : Type} : List (ℕ × List α) → ℕ → List α → List (ℕ × List α)
  | [], key, v => [(key, v)]
  | (k, w) :: rest, key, v =>
      if k = key then (k, v) :: rest else (k, w) :: dictSet rest key v

theorem dictGet_dictSet_self {α : Type} {d : List (ℕ × List α)} {k : ℕ} {v : List α} :
    dictGet (dictSet d k v) k = v := by
  induction d with
  | nil => simp [dictSet, dictGet]
  | cons e rest ih =>
    obtain ⟨k', w⟩ := e
    by_cases h : k' = k
    · simp [dictSet, dictGet, h]
    · simp [dictSet, dictGet, h, ih]

theorem dictGet_dictSet_ne {α : Type} {d : List (ℕ × List α)} {k k' : ℕ}
    (h : k ≠ k') {v : List α} : dictGet (dictSet d k v) k' = dictGet d k' := by
  induction d with
  | nil => simp [dictSet, dictGet, h]
  | cons e rest ih =>
    obtain ⟨k0, w⟩ := e
    by_cases h0 : k0 = k
    · subst h0
      simp [dictSet, dictGet, h]
    · simp only [dictSet, if_neg h0]
      by_cases h1 : k0 = k'
      · simp [dictGet, h1]
      · simp [dictGet, h1, ih]

/-- State of the `PdfViewer` widget relevant to annotation bookkeeping:
whether a document is loaded (`self._doc is not None`), its page count,
`self._current_page`, `self._zoom`, the `_page_rects` dictionary, and the
list of `RedactionRect` items currently in the `QGraphicsScene`. -/
structure ViewerState where
  docLoaded : Bool
  totalPages : ℕ
  currentPage : ℕ
  zoom : ℚ
  pageRects : List (ℕ × List RItem)
  scene : List RItem
  deriving DecidableEq, Repr

/-- Initial viewer state from `PdfViewer.__init__` (src/pdf_viewer.py
lines 25-47): no document, page 0, zoom 2.0, empty `_page_rects`, empty
scene. -/
def initViewerState : ViewerState :=
  { docLoaded := false, totalPages := 0, currentPage := 0, zoom := initZoom
    pageRects := [], scene := [] }

/-- Embeds `PdfViewer._save_current_rects` (src/pdf_viewer.py lines
128-134): the `RedactionRect` items of the scene become the dictionary
entry of the current page (replacing it), and are removed from the
scene. -/
def save_current_rects (s : ViewerState) : ViewerState :=
  { s with pageRects := dictSet s.pageRects s.currentPage s.scene, scene := [] }

/-- Embeds `PdfViewer._restore_current_rects` (src/pdf_viewer.py lines
136-139): the saved items of the current page are added back to the
scene. -/
def restore_current_rects (s : ViewerState) : ViewerState :=
  { s with scene := s.scene ++ dictGet s.pageRects s.currentPage }

/-- Embeds the annotation-relevant effect of `PdfViewer._render_page`
(src/pdf_viewer.py lines 107-123): with no document it returns at once;
otherwise the scene is cleared and the current page's saved items are
restored.  The pixmap rendering through the external library is outside
the annotation state. -/
def render_page (s : ViewerState) : ViewerState :=
  if s.docLoaded then restore_current_rects { s with scene := [] } else s

/-- Embeds `PdfViewer.load_document` (src/pdf_viewer.py lines 51-55) with
the opened document's page count passed explicitly: the current page
becomes 0, `_page_rects` is cleared, and the page is rendered. -/
def load_document (s : ViewerState) (pageCount : ℕ) : ViewerState :=
  render_page { s with docLoaded := true, totalPages := pageCount,
                       currentPage := 0, pageRects := [] }

/-- Embeds `PdfViewer.go_to_page` (src/pdf_viewer.py lines 69-73): when a
document is loaded and the index is in range, the current rects are
saved, the current page is switched, and the new page is rendered. -/
def go_to_page (s : ViewerState) (p : ℕ) : ViewerState :=
  if s.docLoaded = true ∧ p < s.totalPages then
    render_page { save_current_rects s with currentPage := p }
  else s

/-- Embeds `PdfViewer.zoom_in` (src/pdf_viewer.py lines 85-87) at the
state level: the scale factor is updated and the page re-rendered. -/
def zoom_in (s : ViewerState) : ViewerState :=
  render_page { s with zoom := zoom_in_scale s.zoom }

/-- Embeds `PdfViewer.zoom_out` (src/pdf_viewer.py lines 89-91) at the
state level: the scale factor is updated and the page re-rendered. -/
def zoom_out (s : ViewerState) : ViewerState :=
  render_page { s with zoom := zoom_out_scale s.zoom }

/-- Embeds the finalisation of a completed draw gesture: the
`self._drawing and event.button() == Qt.LeftButton` branch of
`PdfViewer.mouseReleaseEvent` (src/pdf_viewer.py lines 221-238), with the
provisional `_current_rect_item` passed explicitly and the press-time
`addItem` folded in.  A rectangle with `rect.width() < 5 and
rect.height() < 5` is removed from the scene and never stored; otherwise
it stays in the scene and is appended to the current page's entry of
`_page_rects` (created on demand). -/
def mouseReleaseFinalize (s : ViewerState) (it : RItem) : ViewerState :=
  if it.rect.w < 5 ∧ it.rect.h < 5 then s
  else
    { s with scene := s.scene ++ [it]
             pageRects := dictSet s.pageRects s.currentPage
               (dictGet s.pageRects s.currentPage ++ [it]) }

/-- Removal of the first occurrence of an element, modelling Python's
`list.remove` (src/pdf_viewer.py line 148). -/
def removeFirst {α : Type} [DecidableEq α] : List α → α → List α
  | [], _ => []
  | x :: xs, a => if x = a then xs else x :: removeFirst xs a

/-- Embeds `PdfViewer.remove_selected_rects` (src/pdf_viewer.py lines
143-150): every selected `RedactionRect` is removed from the scene, and,
when the current page has a dictionary entry containing it, removed from
that entry as well. -/
def remove_selected_rects (s : ViewerState) : ViewerState :=
  let sel := s.scene.filter (fun i => i.selected)
  let pr := sel.foldl (fun d it =>
      if dictHas d s.currentPage then
        if it ∈ dictGet d s.currentPage then
          dictSet d s.currentPage (removeFirst (dictGet d s.currentPage) it)
        else d
      else d) s.pageRects
  { s with scene := s.scene.filter (fun i => !i.selected), pageRects := pr }

/-- Embeds `PdfViewer.clear_page_rects` (src/pdf_viewer.py lines 152-157):
every `RedactionRect` is removed from the scene and the current page's
dictionary entry is set to the empty list. -/
def clear_page_rects (s : ViewerState) : ViewerState :=
  { s with scene := [], pageRects := dictSet s.pageRects s.currentPage [] }

/-- One step of the result-dictionary construction in
`PdfViewer.get_all_redactions` (src/pdf_viewer.py lines 162-175): a page
with no rects is skipped (`if not rects: continue`); otherwise its rects
are converted to document space through the current zoom and assigned to
the result dictionary (a fresh key, hence appended in iteration order). -/
def buildPlanEntry (zoom : ℚ) (acc : List (ℕ × List DocRect)) (e : ℕ × List RItem) :
    List (ℕ × List DocRect) :=
  if e.2.isEmpty then acc
  else acc ++ [(e.1, e.2.map (fun it => toDocumentSpace it.rect zoom))]

/-- Embeds `PdfViewer.get_all_redactions` (src/pdf_viewer.py lines
159-178): the scene rects are saved, every non-empty page entry is
converted to document space by dividing by the current `self._zoom`, and
the scene is restored.  Returns the plan together with the viewer state
after the save/restore pair. -/
def get_all_redactions (s : ViewerState) : List (ℕ × List DocRect) × ViewerState :=
  let s1 := save_current_rects s
  (s1.pageRects.foldl (buildPlanEntry s.zoom) [], restore_current_rects s1)

/-- An observable action of `RedactionEngine.apply_redactions` against the
document: submitting one redaction region on a page
(`page.add_redact_annot`) or committing a page's removals
(`page.apply_redactions`). -/
inductive REvent where
  | submit (page : ℕ) (r : DocRect) : REvent
  | commit (page : ℕ) : REvent
  deriving DecidableEq, Repr

namespace RedactionEngine

/-- Embeds `RedactionEngine.apply_redactions` (src/redaction_engine.py
lines 10-24) as the trace of document actions it performs: the plan's
entries are traversed in dictionary iteration order; an entry whose page
index is outside `[0, docLen)` is skipped (`continue`); otherwise every
rectangle of the page is submitted and then the page is committed. -/
def apply_redactions (docLen : ℕ) (plan : List (ℕ × List DocRect)) : List REvent :=
  plan.foldl (fun acc e =>
    if e.1 < docLen then acc ++ e.2.map (REvent.submit e.1) ++ [REvent.commit e.1]
    else acc) []

end RedactionEngine

/-- Outcome of `RedactorApp._apply_redactions`: early return without a
document, the "No Redactions" information prompt, the user declining the
confirmation dialog, or a completed apply carrying the engine's action
trace and the viewer state after the post-apply cleanup. -/
inductive ApplyOutcome where
  | noDocument : ApplyOutcome
  | promptNoRedactions : ApplyOutcome
  | cancelled (s : ViewerState) : ApplyOutcome
  | applied (events : List REvent) (s : ViewerState) : ApplyOutcome
  deriving DecidableEq, Repr

namespace RedactorApp

/-- Embeds `RedactorApp._apply_redactions` (src/redactor_app.py lines
131-155), with the user's answer to the confirmation dialog passed as
`confirmed`: without a document it warns and returns; with an empty
redaction dictionary it shows the "Draw rectangles" prompt and returns;
if the user declines it returns; otherwise the engine applies the plan,
`_page_rects` is cleared wholesale and the page re-rendered. -/
def apply_redactions_app (s : ViewerState) (confirmed : Bool) : ApplyOutcome :=
  if s.docLoaded then
    if (get_all_redactions s).1.isEmpty then ApplyOutcome.promptNoRedactions
    else if confirmed then
      ApplyOutcome.applied
        (RedactionEngine.apply_redactions s.totalPages (get_all_redactions s).1)
        (render_page { (get_all_redactions s).2 with pageRects := [] })
    else ApplyOutcome.cancelled (get_all_redactions s).2
  else ApplyOutcome.noDocument

end RedactorApp

theorem apply_redactions_acc (docLen : ℕ) (plan : List (ℕ × List DocRect))
    (acc : List REvent) :
    plan.foldl (fun a e =>
        if e.1 < docLen then a ++ e.2.map (REvent.submit e.1) ++ [REvent.commit e.1]
        else a) acc =
      acc ++ RedactionEngine.apply_redactions docLen plan := by
  induction plan generalizing acc with
  | nil => simp [RedactionEngine.apply_redactions]
  | cons e rest ih =>
    simp only [RedactionEngine.apply_redactions, List.foldl_cons]
    by_cases h : e.1 < docLen
    · simp only [if_pos h]
      rw [ih, ih ([] ++ List.map (REvent.submit e.1) e.2 ++ [REvent.commit e.1])]
      simp [List.append_assoc]
    · simp only [if_neg h]
      rw [ih]
      have := ih ([] : List REvent)
      simp only [List.nil_append] at this
      rw [this]

/-- Claim C6: the render-space to document-space conversion divides every
corner coordinate by the scale factor, and the concrete render rectangle
with corners (100,100) and (300,150) at scale 2 maps to the document
rectangle (50,50)-(150,75). -/
theorem C6_render_to_document (r : Rect) (z : ℚ) (hz : 0 < z) :
    ((toDocumentSpace r z).x0 = r.x / z ∧ (toDocumentSpace r z).y0 = r.y / z ∧
     (toDocumentSpace r z).x1 = (r.x + r.w) / z ∧
     (toDocumentSpace r z).y1 = (r.y + r.h) / z) ∧
    toDocumentSpace ⟨100, 100, 200, 50⟩ 2 = ⟨50, 50, 150, 75⟩ :=
  ⟨⟨rfl, rfl, rfl, rfl⟩, by norm_num [toDocumentSpace]⟩

/-- Witness for C6 at the concrete rectangle (8,4)+(2,6) and scale 2. -/
theorem C6_witness : (toDocumentSpace ⟨8, 4, 2, 6⟩ 2).x0 = 8 / 2 :=
  ((C6_render_to_document ⟨8, 4, 2, 6⟩ 2 (by norm_num)).1).1

/-- Claim C7: converting a document-space rectangle to render space at a
positive scale and back to document space at the same scale is the
identity (exact rational arithmetic). -/
theorem C7_roundtrip (d : DocRect) (z : ℚ) (hz : 0 < z) :
    toDocumentSpace (toRenderSpace d z) z = d := by
  have hz' : z ≠ 0 := ne_of_gt hz
  cases d with
  | mk x0 y0 x1 y1 =>
    simp only [toRenderSpace, toDocumentSpace, DocRect.mk.injEq]
    refine ⟨?_, ?_, ?_, ?_⟩ <;> field_simp <;> ring

/-- Witness for C7 at the document rectangle (1,2,3,4) and scale 2. -/
theorem C7_witness : toDocumentSpace (toRenderSpace ⟨1, 2, 3, 4⟩ 2) 2 = ⟨1, 2, 3, 4⟩ :=
  C7_roundtrip ⟨1, 2, 3, 4⟩ 2 (by norm_num)

/-- Claim C10: starting from the initial zoom factor 2.0, every sequence
of zoom-in and zoom-out operations keeps the scale factor within
[0.5, 8.0]; in particular the scale stays strictly positive, so the
divisions in `toDocumentSpace` are well defined. -/
theorem C10_zoom_scale_invariant (ops : List ZoomOp) :
    1/2 ≤ applyZoomOps ops initZoom ∧ applyZoomOps ops initZoom ≤ 8 ∧
    0 < applyZoomOps ops initZoom := by
  have h := applyZoomOps_mem ops (z := initZoom) (by norm_num [initZoom])
    (by norm_num [initZoom])
  exact ⟨h.1, h.2, lt_of_lt_of_le (by norm_num) h.1⟩

/-- Counterexample for claim C3: a plan containing the out-of-range page
index 5 against a 1-page document is processed exactly as if that entry
were absent — the entry is silently skipped and the remaining page 0 is
still submitted and committed; no assertion or error interrupts the
apply. -/
theorem C3_counterexample :
    RedactionEngine.apply_redactions 1 [(5, [⟨0, 0, 1, 1⟩]), (0, [⟨0, 0, 1, 1⟩])] =
      RedactionEngine.apply_redactions 1 [(0, [⟨0, 0, 1, 1⟩])] ∧
    RedactionEngine.apply_redactions 1 [(5, [⟨0, 0, 1, 1⟩]), (0, [⟨0, 0, 1, 1⟩])] =
      [REvent.submit 0 ⟨0, 0, 1, 1⟩, REvent.commit 0] := by
  constructor <;> rfl

/-- Claim C3 as amended: a plan entry whose page index is outside the
document's page range is silently skipped by `apply_redactions`, which
continues with the remaining entries unchanged. -/
theorem C3_amended (docLen : ℕ) (pre post : List (ℕ × List DocRect)) (p : ℕ)
    (rects : List DocRect) (hp : docLen ≤ p) :
    RedactionEngine.apply_redactions docLen (pre ++ (p, rects) :: post) =
      RedactionEngine.apply_redactions docLen (pre ++ post) := by
  unfold RedactionEngine.apply_redactions
  rw [List.foldl_append, List.foldl_append, List.foldl_cons]
  have h : ¬ p < docLen := not_lt.mpr hp
  simp [h]

/-- Witness for the amended C3: page 5 is out of range for a 1-page
document and its plan entry is dropped. -/
theorem C3_amended_witness :
    RedactionEngine.apply_redactions 1 [(5, [⟨0, 0, 1, 1⟩]), (0, [⟨2, 2, 3, 3⟩])] =
      RedactionEngine.apply_redactions 1 [(0, [⟨2, 2, 3, 3⟩])] :=
  C3_amended 1 [] [(0, [⟨2, 2, 3, 3⟩])] 5 [⟨0, 0, 1, 1⟩] (by norm_num)

/-- Counterexample for claim C4: in the plan whose dictionary insertion
order is page 1 before page 0 (both in range of a 2-page document),
page 1's rectangle is submitted and committed before page 0's, so pages
are not processed in ascending page-index order. -/
theorem C4_counterexample :
    RedactionEngine.apply_redactions 2 [(1, [⟨0, 0, 1, 1⟩]), (0, [⟨2, 2, 3, 3⟩])] =
      [REvent.submit 1 ⟨0, 0, 1, 1⟩, REvent.commit 1,
       REvent.submit 0 ⟨2, 2, 3, 3⟩, REvent.commit 0] := rfl

/-- Claim C4 as amended: `apply_redactions` processes the plan's entries
sequentially in the plan's dictionary insertion order (the order pages
were first annotated), and for each in-range page every rectangle is
submitted and the page committed before the next entry is touched. -/
theorem C4_amended (docLen : ℕ) (xs ys : List (ℕ × List DocRect)) (p : ℕ)
    (rects : List DocRect) :
    RedactionEngine.apply_redactions docLen (xs ++ ys) =
      RedactionEngine.apply_redactions docLen xs ++
        RedactionEngine.apply_redactions docLen ys ∧
    (p < docLen →
      RedactionEngine.apply_redactions docLen [(p, rects)] =
        rects.map (REvent.submit p) ++ [REvent.commit p]) := by
  constructor
  · show (xs ++ ys).foldl _ _ = _
    rw [List.foldl_append]
    have h1 : xs.foldl (fun a e =>
        if e.1 < docLen then a ++ e.2.map (REvent.submit e.1) ++ [REvent.commit e.1]
        else a) [] = RedactionEngine.apply_redactions docLen xs := by
      have := apply_redactions_acc docLen xs []
      simpa using this
    rw [h1]
    exact apply_redactions_acc docLen ys _
  · intro hp
    simp [RedactionEngine.apply_redactions, hp]

/-- Witness for the amended C4 at a concrete two-entry plan. -/
theorem C4_amended_witness :
    RedactionEngine.apply_redactions 1 [(0, [⟨0, 0, 1, 1⟩])] =
      [REvent.submit 0 ⟨0, 0, 1, 1⟩, REvent.commit 0] :=
  (C4_amended 1 [] [] 0 [⟨0, 0, 1, 1⟩]).2 (by norm_num)

/-- Counterexample for claim C2: finalising a draw gesture whose rectangle
has render-space height 2 (< 5) but width 100 stores the rectangle — the
page's stored sequence changes from empty to a one-element list, because
`mouseReleaseEvent` discards only rectangles that are small in BOTH
dimensions (`rect.width() < 5 and rect.height() < 5`). -/
theorem C2_counterexample :
    dictGet (mouseReleaseFinalize ⟨true, 1, 0, 2, [], []⟩
        ⟨0, ⟨0, 0, 100, 2⟩, false⟩).pageRects 0 = [⟨0, ⟨0, 0, 100, 2⟩, false⟩] ∧
    (⟨0, 0, 100, 2⟩ : Rect).h < 5 ∧
    dictGet (⟨true, 1, 0, 2, [], []⟩ : ViewerState).pageRects 0 = [] := by
  refine ⟨?_, by norm_num, rfl⟩
  rfl

/-- Claim C2 as amended: finalising a draw discards the rectangle (the
stored sequence of every page is unchanged) exactly when both its
render-space width and height are below 5 device units; otherwise —
whenever width ≥ 5 or height ≥ 5 — the rectangle is appended to the
current page's stored sequence, other pages staying untouched. -/
theorem C2_amended (s : ViewerState) (it : RItem) :
    (it.rect.w < 5 ∧ it.rect.h < 5 →
      ∀ p, dictGet (mouseReleaseFinalize s it).pageRects p = dictGet s.pageRects p) ∧
    (¬(it.rect.w < 5 ∧ it.rect.h < 5) →
      dictGet (mouseReleaseFinalize s it).pageRects s.currentPage =
        dictGet s.pageRects s.currentPage ++ [it] ∧
      ∀ p, p ≠ s.currentPage →
        dictGet (mouseReleaseFinalize s it).pageRects p = dictGet s.pageRects p) := by
  constructor
  · intro h p
    simp [mouseReleaseFinalize, h]
  · intro h
    constructor
    · simp only [mouseReleaseFinalize, if_neg h]
      exact dictGet_dictSet_self
    · intro p hp
      simp only [mouseReleaseFinalize, if_neg h]
      exact dictGet_dictSet_ne (Ne.symm hp)

/-- Witness for the amended C2: a 1-by-1 rectangle is discarded and a
10-by-10 rectangle is appended, on a viewer showing page 0 with an empty
store. -/
theorem C2_amended_witness :
    dictGet (mouseReleaseFinalize ⟨true, 1, 0, 2, [], []⟩
        ⟨1, ⟨0, 0, 1, 1⟩, false⟩).pageRects 0 =
      dictGet (⟨true, 1, 0, 2, [], []⟩ : ViewerState).pageRects 0 ∧
    dictGet (mouseReleaseFinalize ⟨true, 1, 0, 2, [], []⟩
        ⟨2, ⟨0, 0, 10, 10⟩, false⟩).pageRects 0 =
      dictGet (⟨true, 1, 0, 2, [], []⟩ : ViewerState).pageRects 0 ++
        [⟨2, ⟨0, 0, 10, 10⟩, false⟩] :=
  ⟨(C2_amended ⟨true, 1, 0, 2, [], []⟩ ⟨1, ⟨0, 0, 1, 1⟩, false⟩).1 (by norm_num) 0,
   ((C2_amended ⟨true, 1, 0, 2, [], []⟩ ⟨2, ⟨0, 0, 10, 10⟩, false⟩).2 (by norm_num)).1⟩

/-- RedactionRect item of the C1 scenario: scene corners (100,100) and
(300,150), i.e. position (100,100) with width 200 and height 50. -/
def c1_item : RItem := ⟨0, ⟨100, 100, 200, 50⟩, false⟩

/-- Viewer state of the C1 scenario: a fresh 1-page document, a rectangle
drawn at the initial zoom 2.0, then one zoom-in (scale becomes 2.5). -/
def c1_state : ViewerState :=
  zoom_in (mouseReleaseFinalize (load_document initViewerState 1) c1_item)

theorem c1_state_eq : c1_state = ⟨true, 1, 0, 5/2, [(0, [c1_item])], [c1_item]⟩ := by
  have h1 : load_document initViewerState 1 =
      (⟨true, 1, 0, 2, [], []⟩ : ViewerState) := rfl
  have h2 : mouseReleaseFinalize ⟨true, 1, 0, 2, [], []⟩ c1_item =
      ⟨true, 1, 0, 2, [(0, [c1_item])], [c1_item]⟩ := by
    unfold mouseReleaseFinalize
    rw [if_neg (by norm_num [c1_item])]
    rfl
  have h3 : zoom_in_scale 2 = 5/2 := by
    unfold zoom_in_scale
    rw [min_def]
    norm_num
  show zoom_in (mouseReleaseFinalize (load_document initViewerState 1) c1_item) = _
  rw [h1, h2]
  unfold zoom_in
  show render_page ⟨true, 1, 0, zoom_in_scale 2, [(0, [c1_item])], [c1_item]⟩ = _
  rw [h3]
  rfl

/-- Claim C1 evaluated at its failing input: the rectangle was drawn at
scale 2.0, where its document-space form is (50,50)-(150,75); after one
zoom-in the viewer divides the unchanged scene coordinates by the new
scale 2.5, so `get_all_redactions` produces (40,40)-(120,60) — not the
draw-time result the claim requires. -/
theorem C1_stale_scale_bug :
    (load_document initViewerState 1).zoom = 2 ∧
    toDocumentSpace c1_item.rect 2 = ⟨50, 50, 150, 75⟩ ∧
    c1_state.zoom = 5/2 ∧
    (get_all_redactions c1_state).1 = [(0, [⟨40, 40, 120, 60⟩])] ∧
    (get_all_redactions c1_state).1 ≠ [(0, [⟨50, 50, 150, 75⟩])] := by
  have hplan : (get_all_redactions c1_state).1 = [(0, [⟨40, 40, 120, 60⟩])] := by
    rw [c1_state_eq]
    unfold get_all_redactions save_current_rects
    show List.foldl (buildPlanEntry (5/2)) [] [(0, [c1_item])] = _
    unfold buildPlanEntry
    norm_num [toDocumentSpace, c1_item]
  refine ⟨rfl, by norm_num [toDocumentSpace, c1_item], ?_, hplan, ?_⟩
  · rw [c1_state_eq]
  · rw [hplan]
    intro h
    have := congrArg (fun l => dictGet l 0) h
    simp [dictGet] at this

theorem dictSet_all_empty :
    ∀ (d : List (ℕ × List RItem)) (k : ℕ),
      (∀ e ∈ d, e.2 = []) → ∀ e ∈ dictSet d k ([] : List RItem), e.2 = []
  | [], k, _, e, he => by
      simp [dictSet] at he
      rw [he]
  | (k0, v0) :: rest, k, h, e, he => by
      by_cases hk : k0 = k
      · simp only [dictSet, if_pos hk] at he
        rcases List.mem_cons.mp he with h1 | h1
        · rw [h1]
        · exact h _ (List.mem_cons_of_mem _ h1)
      · simp only [dictSet, if_neg hk] at he
        rcases List.mem_cons.mp he with h1 | h1
        · rw [h1]
          exact h _ (List.mem_cons_self _ _)
        · exact dictSet_all_empty rest k
            (fun e' he' => h e' (List.mem_cons_of_mem _ he')) e h1

theorem foldl_buildPlanEntry_all_empty (z : ℚ) :
    ∀ (d : List (ℕ × List RItem)) (acc : List (ℕ × List DocRect)),
      (∀ e ∈ d, e.2 = []) → d.foldl (buildPlanEntry z) acc = acc
  | [], _, _ => rfl
  | e :: rest, acc, h => by
      have he : e.2 = [] := h e (List.mem_cons_self e rest)
      rw [List.foldl_cons]
      have hstep : buildPlanEntry z acc e = acc := by
        simp [buildPlanEntry, he]
      rw [hstep]
      exact foldl_buildPlanEntry_all_empty z rest acc
        (fun e' he' => h e' (List.mem_cons_of_mem e he'))

/-- Claim C5: when every page's stored sequence is empty (and hence the
scene shows no rects), `get_all_redactions` produces the empty plan, and
`_apply_redactions` shows the "draw rectangles first" prompt and returns
without touching the document, whatever the confirmation flag would have
been. -/
theorem C5_empty_plan (s : ViewerState) (confirmed : Bool)
    (hdoc : s.docLoaded = true) (hempty : ∀ e ∈ s.pageRects, e.2 = [])
    (hscene : s.scene = []) :
    (get_all_redactions s).1 = [] ∧
    RedactorApp.apply_redactions_app s confirmed = ApplyOutcome.promptNoRedactions := by
  have hall : ∀ e ∈ dictSet s.pageRects s.currentPage s.scene, e.2 = [] := by
    rw [hscene]
    exact dictSet_all_empty s.pageRects s.currentPage hempty
  have hplan : (get_all_redactions s).1 = [] := by
    show List.foldl (buildPlanEntry s.zoom) []
      (dictSet s.pageRects s.currentPage s.scene) = []
    exact foldl_buildPlanEntry_all_empty s.zoom _ [] hall
  refine ⟨hplan, ?_⟩
  unfold RedactorApp.apply_redactions_app
  rw [if_pos hdoc, hplan]
  rfl

/-- Witness for C5 at a store with two pages whose sequences are both
empty. -/
theorem C5_witness :
    RedactorApp.apply_redactions_app ⟨true, 3, 0, 2, [(0, []), (2, [])], []⟩ true =
      ApplyOutcome.promptNoRedactions :=
  (C5_empty_plan ⟨true, 3, 0, 2, [(0, []), (2, [])], []⟩ true rfl (by decide) rfl).2

/-- Claim C8: a successful apply leaves every page's stored sequence
empty, and loading a document likewise resets the store so that every
page's stored sequence is empty. -/
theorem C8_store_cleared (s : ViewerState) (confirmed : Bool) (ev : List REvent)
    (s' : ViewerState) (t : ViewerState) (n p : ℕ) :
    (RedactorApp.apply_redactions_app s confirmed = ApplyOutcome.applied ev s' →
      dictGet s'.pageRects p = []) ∧
    dictGet (load_document t n).pageRects p = [] := by
  constructor
  · intro h
    unfold RedactorApp.apply_redactions_app at h
    by_cases hdoc : s.docLoaded = true
    · rw [if_pos hdoc] at h
      by_cases hemp : (get_all_redactions s).1.isEmpty = true
      · rw [if_pos hemp] at h
        exact absurd h (by simp)
      · rw [if_neg hemp] at h
        by_cases hc : confirmed = true
        · rw [if_pos hc] at h
          have hs' := ((ApplyOutcome.applied.injEq _ _ _ _).mp h).2
          rw [← hs']
          unfold render_page restore_current_rects
          split
          · rfl
          · rfl
        · rw [if_neg hc] at h
          exact absurd h (by simp)
    · rw [if_neg hdoc] at h
      exact absurd h (by simp)
  · rfl

/-- Viewer state of the C8 witness: a loaded 1-page document at zoom 2
with one 10-by-10 rectangle stored on page 0 and shown in the scene. -/
def c8_state : ViewerState :=
  ⟨true, 1, 0, 2, [(0, [⟨0, ⟨0, 0, 10, 10⟩, false⟩])], [⟨0, ⟨0, 0, 10, 10⟩, false⟩]⟩

/-- Witness for C8: a concrete successful apply on `c8_state`, and a
concrete document load, both of which leave the store empty. -/
theorem C8_witness :
    dictGet (⟨true, 1, 0, 2, [], []⟩ : ViewerState).pageRects 0 = [] ∧
    dictGet (load_document initViewerState 1).pageRects 0 = [] := by
  have hconv : toDocumentSpace ⟨0, 0, 10, 10⟩ 2 = ⟨0, 0, 5, 5⟩ := by
    norm_num [toDocumentSpace]
  have hplan : (get_all_redactions c8_state).1 = [(0, [⟨0, 0, 5, 5⟩])] := by
    show List.foldl (buildPlanEntry 2) [] [(0, [⟨0, ⟨0, 0, 10, 10⟩, false⟩])] = _
    unfold buildPlanEntry
    simp [hconv]
  have happ : RedactorApp.apply_redactions_app c8_state true =
      ApplyOutcome.applied [REvent.submit 0 ⟨0, 0, 5, 5⟩, REvent.commit 0]
        ⟨true, 1, 0, 2, [], []⟩ := by
    unfold RedactorApp.apply_redactions_app
    rw [hplan]
    rfl
  have h := C8_store_cleared c8_state true
    [REvent.submit 0 ⟨0, 0, 5, 5⟩, REvent.commit 0]
    ⟨true, 1, 0, 2, [], []⟩ initViewerState 1 0
  exact ⟨h.1 happ, h.2⟩

/-- One rectangle-management operation performed while staying on the
current page: finalising a draw gesture, deleting the selected
rectangles, or clearing the page. -/
inductive PageOp where
  | draw (it : RItem) : PageOp
  | removeSel : PageOp
  | clearPg : PageOp
  deriving DecidableEq, Repr

/-- Effect of one `PageOp` on the viewer state. -/
def runPageOp (s : ViewerState) : PageOp → ViewerState
  | PageOp.draw it => mouseReleaseFinalize s it
  | PageOp.removeSel => remove_selected_rects s
  | PageOp.clearPg => clear_page_rects s

/-- Effect of a sequence of `PageOp`s on the viewer state. -/
def runPageOps (s : ViewerState) (ops : List PageOp) : ViewerState :=
  ops.foldl runPageOp s

theorem runPageOp_currentPage (s : ViewerState) (op : PageOp) :
    (runPageOp s op).currentPage = s.currentPage := by
  cases op with
  | draw it =>
    show (mouseReleaseFinalize s it).currentPage = s.currentPage
    unfold mouseReleaseFinalize
    split <;> rfl
  | removeSel => rfl
  | clearPg => rfl

theorem remove_sel_foldl_other (A B : ℕ) (hne : B ≠ A) (sel : List RItem) :
    ∀ d : List (ℕ × List RItem),
      dictGet (sel.foldl (fun d it =>
          if dictHas d A then
            if it ∈ dictGet d A then
              dictSet d A (removeFirst (dictGet d A) it)
            else d
          else d) d) B = dictGet d B := by
  induction sel with
  | nil => intro d; rfl
  | cons it rest ih =>
    intro d
    rw [List.foldl_cons, ih]
    by_cases h1 : dictHas d A = true
    · by_cases h2 : it ∈ dictGet d A
      · rw [if_pos h1, if_pos h2]
        exact dictGet_dictSet_ne (Ne.symm hne)
      · rw [if_pos h1, if_neg h2]
    · rw [if_neg h1]

theorem runPageOp_pageRects_other (s : ViewerState) (op : PageOp) (B : ℕ)
    (hne : B ≠ s.currentPage) :
    dictGet (runPageOp s op).pageRects B = dictGet s.pageRects B := by
  cases op with
  | draw it =>
    show dictGet (mouseReleaseFinalize s it).pageRects B = dictGet s.pageRects B
    unfold mouseReleaseFinalize
    split
    · rfl
    · exact dictGet_dictSet_ne (Ne.symm hne)
  | removeSel =>
    show dictGet (remove_selected_rects s).pageRects B = dictGet s.pageRects B
    exact remove_sel_foldl_other s.currentPage B hne
      (s.scene.filter (fun i => i.selected)) s.pageRects
  | clearPg =>
    show dictGet (clear_page_rects s).pageRects B = dictGet s.pageRects B
    exact dictGet_dictSet_ne (Ne.symm hne)

theorem runPageOps_pageRects_other (ops : List PageOp) :
    ∀ (s : ViewerState) (B : ℕ), B ≠ s.currentPage →
      dictGet (runPageOps s ops).pageRects B = dictGet s.pageRects B := by
  induction ops with
  | nil => intro s B _; rfl
  | cons op rest ih =>
    intro s B hne
    show dictGet ((op :: rest).foldl runPageOp s).pageRects B = _
    rw [List.foldl_cons]
    have hcp : (runPageOp s op).currentPage = s.currentPage :=
      runPageOp_currentPage s op
    have hrec := ih (runPageOp s op) B (by rw [hcp]; exact hne)
    rw [runPageOps] at hrec
    rw [hrec, runPageOp_pageRects_other s op B hne]

/-- Claim C9: rectangle operations performed while a page is current
never change any other page's stored sequence; and navigating to another
page and back leaves the original page's rectangles present with
unchanged geometry (the store entry and the restored scene both equal
the original sequence). -/
theorem C9_page_isolation (s : ViewerState) (ops : List PageOp) (B : ℕ) :
    (B ≠ s.currentPage →
      dictGet (runPageOps s ops).pageRects B = dictGet s.pageRects B) ∧
    (s.scene = dictGet s.pageRects s.currentPage → s.docLoaded = true →
      B < s.totalPages → s.currentPage < s.totalPages → B ≠ s.currentPage →
      (go_to_page (go_to_page s B) s.currentPage).currentPage = s.currentPage ∧
      dictGet (go_to_page (go_to_page s B) s.currentPage).pageRects s.currentPage =
        dictGet s.pageRects s.currentPage ∧
      (go_to_page (go_to_page s B) s.currentPage).scene =
        dictGet s.pageRects s.currentPage) := by
  constructor
  · intro hne
    exact runPageOps_pageRects_other ops s B hne
  · intro hmirror hdoc hB hA hne
    have h1 : go_to_page s B =
        { s with currentPage := B,
                 pageRects := dictSet s.pageRects s.currentPage s.scene,
                 scene := dictGet (dictSet s.pageRects s.currentPage s.scene) B } := by
      unfold go_to_page
      rw [if_pos ⟨hdoc, hB⟩]
      unfold save_current_rects render_page restore_current_rects
      rw [if_pos hdoc]
      rfl
    have hsceneB : dictGet (dictSet s.pageRects s.currentPage s.scene) B =
        dictGet s.pageRects B := dictGet_dictSet_ne (Ne.symm hne)
    have h2 : go_to_page (go_to_page s B) s.currentPage =
        { s with currentPage := s.currentPage,
                 pageRects := dictSet (dictSet s.pageRects s.currentPage s.scene) B
                   (dictGet (dictSet s.pageRects s.currentPage s.scene) B),
                 scene := dictGet (dictSet (dictSet s.pageRects s.currentPage s.scene) B
                   (dictGet (dictSet s.pageRects s.currentPage s.scene) B))
                   s.currentPage } := by
      rw [h1]
      unfold go_to_page
      rw [if_pos ⟨hdoc, hA⟩]
      unfold save_current_rects render_page restore_current_rects
      rw [if_pos hdoc]
      rfl
    have hback : dictGet (dictSet (dictSet s.pageRects s.currentPage s.scene) B
        (dictGet (dictSet s.pageRects s.currentPage s.scene) B)) s.currentPage =
        dictGet s.pageRects s.currentPage := by
      rw [dictGet_dictSet_ne hne, dictGet_dictSet_self, hmirror]
    rw [h2]
    exact ⟨rfl, hback, hback⟩

/-- Viewer state of the C9 witness: a 2-page document with two rectangles
stored on page 0, which is current and mirrored in the scene. -/
def c9_state : ViewerState :=
  ⟨true, 2, 0, 2,
   [(0, [⟨1, ⟨0, 0, 10, 10⟩, false⟩, ⟨2, ⟨20, 20, 30, 30⟩, false⟩])],
   [⟨1, ⟨0, 0, 10, 10⟩, false⟩, ⟨2, ⟨20, 20, 30, 30⟩, false⟩]⟩

/-- Witness for C9: clearing page 0 leaves page 1's entry untouched, and
navigating page 0 → page 1 → page 0 preserves page 0's two rectangles. -/
theorem C9_witness :
    dictGet (runPageOps c9_state [PageOp.clearPg]).pageRects 1 =
      dictGet c9_state.pageRects 1 ∧
    (go_to_page (go_to_page c9_state 1) 0).currentPage = 0 ∧
    dictGet (go_to_page (go_to_page c9_state 1) 0).pageRects 0 =
      dictGet c9_state.pageRects 0 ∧
    (go_to_page (go_to_page c9_state 1) 0).scene = dictGet c9_state.pageRects 0 := by
  have h := C9_page_isolation c9_state [PageOp.clearPg] 1
  exact ⟨h.1 (by decide), h.2 rfl rfl (by decide) (by decide) (by decide)⟩

end PdfRedactor
